import Mathlib

/-!
Verification of the YouTube-notes pipeline (`youtube_to_notes.py`,
`youtube_to_note.py`, `youtube_to_links.py`).

Strings are modelled as `List Char`.  Timestamps are modelled as `Int`
instants (seconds).  The external collaborators (the catalog provider and
the note-generation process) are modelled as explicit inputs: per-channel
query results, and a per-attempt process-result oracle.
-/

namespace YTN

/-- A string of characters, as used for titles, ids, paths and urls. -/
abbrev Str := List Char

/-- A channel identifier, as extracted from a subscription item. -/
abbrev ChannelId := Str

/-! ## Filename Sanitizer (`sanitize_filename` in `youtube_to_note.py`,
inlined at lines 131-132 of `youtube_to_notes.py`) -/

/-- The characters removed by the regex `[<>:"/\\|?*]`. -/
def illegalChars : List Char := ['<', '>', ':', '"', '/', '\\', '|', '?', '*']

/-- One step of `.replace(" ", "_")`: every space character becomes an
underscore; every other character is unchanged. -/
def replaceSpace (c : Char) : Char := if c = ' ' then '_' else c

/-- `re.sub(r'[<>:"/\\|?*]', '', title).replace(" ", "_")`: drop the illegal
characters, then replace each space with an underscore. -/
def sanitize_filename (title : Str) : Str :=
  (title.filter (fun c => !(illegalChars.contains c))).map replaceSpace

/-! ## Paths -/

/-- POSIX `os.path.join(a, b)` for a single join: `b` absolute wins; a
trailing separator or empty `a` is not doubled; otherwise insert `/`. -/
def os_path_join (a b : Str) : Str :=
  if b.head? = some '/' then b
  else if a = [] ∨ a.getLast? = some '/' then a ++ b
  else a ++ '/' :: b

/-- The extension appended to the sanitized title. -/
def txtExt : Str := ['.', 't', 'x', 't']

/-- `os.path.join(save_path, f"{safe_title}.txt")`. -/
def output_path (savePath title : Str) : Str :=
  os_path_join savePath (sanitize_filename title ++ txtExt)

/-! ## Discovery (`fetch_recent_videos` in `youtube_to_notes.py`) -/

/-- A search result item: `snippet.title`, `id.videoId`, and the publish
instant the provider filters on. -/
structure RawVideo where
  title : Str
  videoId : Str
  publishedAt : Int
deriving DecidableEq

/-- A candidate produced by discovery: `{"title": ..., "url": ...}`. -/
structure Video where
  title : Str
  url : Str
deriving DecidableEq

/-- ASCII lowercasing, modelling `str.lower()` on the ASCII titles used
throughout (uppercase letters map to lowercase, all else unchanged). -/
def lowerA (c : Char) : Char :=
  if 'A' ≤ c ∧ c ≤ 'Z' then Char.ofNat (c.toNat + 32) else c

/-- The tag looked for by the shorts filter. -/
def shortsTag : Str := ['#', 's', 'h', 'o', 'r', 't', 's']

/-- The test `"#shorts" not in title.lower()`. -/
def keepTitle (title : Str) : Bool :=
  !(decide (shortsTag <:+: title.map lowerA))

/-- The spec's reading of the shorts filter, for comparison with the code:
the title contains the substring `"#shorts"` case-insensitively, i.e. some
contiguous piece of the title lowercases to the tag. -/
def containsShortsCI (title : Str) : Prop :=
  ∃ w, w <:+: title ∧ w.map lowerA = shortsTag

/-- The canonical watch-url base string. -/
def watchUrlBase : Str :=
  ['h', 't', 't', 'p', 's', ':', '/', '/', 'w', 'w', 'w', '.', 'y', 'o',
   'u', 't', 'u', 'b', 'e', '.', 'c', 'o', 'm', '/', 'w', 'a', 't', 'c',
   'h', '?', 'v', '=']

/-- `{"title": title, "url": f"https://www.youtube.com/watch?v={video_id}"}`. -/
def candidateOf (v : RawVideo) : Video :=
  { title := v.title, url := watchUrlBase ++ v.videoId }

/-- The inner loop over one channel's items: append a candidate for each
item whose title passes the shorts filter. -/
def channelCandidates (acc : List Video) (items : List RawVideo) : List Video :=
  items.foldl (fun a v => if keepTitle v.title then a ++ [candidateOf v] else a) acc

/-- `fetch_recent_videos`: a failed subscription request yields `[]`
(lines 80-82); a failed per-channel search contributes nothing and the loop
continues (lines 96-98); otherwise each channel's kept items are appended. -/
def fetch_recent_videos (subs : Except Unit (List ChannelId))
    (search : ChannelId → Except Unit (List RawVideo)) : List Video :=
  match subs with
  | .error _ => []
  | .ok channels =>
    channels.foldl (fun acc ch =>
      match search ch with
      | .error _ => acc
      | .ok items => channelCandidates acc items) []

/-- One channel's contribution to the discovery result: empty on a failed
search, the kept candidates otherwise. -/
def contribution (search : ChannelId → Except Unit (List RawVideo))
    (ch : ChannelId) : List Video :=
  match search ch with
  | .error _ => []
  | .ok items => (items.filter (fun v => keepTitle v.title)).map candidateOf

/-- `DAYS_THRESHOLD` converted to a window end:
`now_utc - window_days` as an instant (days in seconds). -/
def threshold (now windowDays : Int) : Int := now - windowDays * 86400

/-- Modelled from the spec: the external catalog provider's
`search.list(..., publishedAfter=threshold, type="video")` call is not part
of this repository; per section 4.3 step 1 and section 6 it returns exactly
the channel's videos published strictly after the threshold instant. -/
def providerSearch (catalog : ChannelId → List RawVideo) (th : Int)
    (ch : ChannelId) : List RawVideo :=
  (catalog ch).filter (fun v => th < v.publishedAt)

/-- Discovery composed with the modelled provider: `fetch_recent_videos`
where every channel search succeeds with the provider's filtered results. -/
def discover (catalog : ChannelId → List RawVideo)
    (subs : Except Unit (List ChannelId)) (now windowDays : Int) : List Video :=
  fetch_recent_videos subs (fun ch => .ok (providerSearch catalog (threshold now windowDays) ch))

/-! ## Resilient invocation (`run_extract_wisdom` and the retry loop of
`process_videos`) -/

/-- What one run of the external process can do: exit with success status,
exit with a non-success status (`CalledProcessError`), or exceed the
timeout (`TimeoutExpired`). -/
inductive ProcResult where
  | completedSuccess
  | completedFailure
  | timedOut
deriving DecidableEq

/-- `run_extract_wisdom`: `subprocess.run(..., check=True, timeout=...)`
returns normally only on a success status, so the function returns `True`
exactly then; both `except` branches fall through to `return False`. -/
def run_extract_wisdom (r : ProcResult) : Bool :=
  match r with
  | .completedSuccess => true
  | .completedFailure => false
  | .timedOut => false

/-- `MAX_RETRIES = 2` in `youtube_to_notes.py`. -/
def MAX_RETRIES : Nat := 2

/-- The reason recorded when a video is skipped. -/
inductive SkipReason where
  | alreadyExists
deriving DecidableEq

/-- The per-video outcome: skipped, succeeded after some attempts, or
failed after some attempts. -/
inductive ProcessingOutcome where
  | skipped (reason : SkipReason)
  | succeeded (attempts : Nat)
  | failed (attempts : Nat)
deriving DecidableEq

/-- The boolean the retry loop consumes on a given attempt number. -/
def attemptRun (proc : Nat → ProcResult) : Nat → Bool :=
  fun k => run_extract_wisdom (proc k)

/-- The body of `for attempt in range(MAX_RETRIES)`: `attempt` is the
1-based number of the current attempt, `remaining` the attempts left.  The
result also records which attempt numbers were actually performed. -/
def invokeGo (run : Nat → Bool) (maxAttempts attempt remaining : Nat) :
    ProcessingOutcome × List Nat :=
  match remaining with
  | 0 => (.failed maxAttempts, [])
  | r + 1 =>
    if run attempt then (.succeeded attempt, [attempt])
    else
      let rest := invokeGo run maxAttempts (attempt + 1) r
      (rest.1, attempt :: rest.2)

/-- The retry loop of `process_videos` lines 139-149: attempt up to
`maxAttempts` times, stopping at the first success. -/
def invoke (run : Nat → Bool) (maxAttempts : Nat) : ProcessingOutcome × List Nat :=
  invokeGo run maxAttempts 1 maxAttempts

/-- Whether an outcome is a success. -/
def isSucceeded : ProcessingOutcome → Bool
  | .succeeded _ => true
  | _ => false

/-! ## Per-video processing and the batch (`process_videos`, `main`) -/

/-- One iteration of the `process_videos` loop for one video: build the
output path, skip if it already exists (lines 134-137), otherwise run the
retry loop.  The filesystem is a list of existing paths; a successful
external run is modelled as creating the artifact at the output path. -/
def processVideo (proc : Nat → ProcResult) (fs : List Str) (savePath : Str)
    (v : Video) : ProcessingOutcome × List Nat × List Str :=
  let path := output_path savePath v.title
  if path ∈ fs then (.skipped .alreadyExists, [], fs)
  else
    let r := invoke (attemptRun proc) MAX_RETRIES
    (r.1, r.2, if isSucceeded r.1 then path :: fs else fs)

/-- `process_videos`: the loop over the candidate list, threading the
filesystem, recording each video's outcome and performed attempts. -/
def process_videos (proc : Video → Nat → ProcResult) (fs : List Str)
    (videos : List Video) (savePath : Str) :
    List (ProcessingOutcome × List Nat) × List Str :=
  match videos with
  | [] => ([], fs)
  | v :: rest =>
    let step := processVideo (proc v) fs savePath v
    let tail := process_videos proc step.2.2 rest savePath
    ((step.1, step.2.1) :: tail.1, tail.2)

/-- Everything one account's processing depends on: its subscription-list
result, its per-channel search results, its per-video per-attempt process
results, the filesystem, and its save path. -/
structure AccountEnv where
  subs : Except Unit (List ChannelId)
  search : ChannelId → Except Unit (List RawVideo)
  proc : Video → Nat → ProcResult
  fs : List Str
  savePath : Str

/-- One account's pass in `main`: discover, then process, yielding the
account's outcome sequence. -/
def processAccount (env : AccountEnv) : List ProcessingOutcome :=
  ((process_videos env.proc env.fs
      (fetch_recent_videos env.subs env.search) env.savePath).1).map Prod.fst

/-- `main`: the accounts are processed sequentially and independently
(the source writes this out once per account; the semantics per account are
identical). -/
def runBatch (envs : List AccountEnv) : List (List ProcessingOutcome) :=
  envs.map processAccount

/-! ## A concrete two-account scenario: account A's subscription request
fails; account B discovers one fresh candidate that succeeds on its first
attempt. -/

/-- The single candidate discovered for account B. -/
def scenarioVideo : Video := ⟨"Demo".toList, watchUrlBase ++ "x".toList⟩

/-- Account A: discovery fails at the subscription request. -/
def scenarioEnvA : AccountEnv :=
  ⟨.error (), fun _ => .error (), fun _ _ => .timedOut, [], []⟩

/-- Account B: one subscribed channel with one fresh video; the external
process succeeds on every attempt. -/
def scenarioEnvB : AccountEnv :=
  ⟨.ok [['c']], fun _ => .ok [⟨"Demo".toList, "x".toList, 0⟩],
    fun _ _ => .completedSuccess, [], []⟩

/-! ## Sanitizer lemmas -/

/-- Replacing the space does not change whether a character is illegal. -/
lemma contains_replaceSpace (c : Char) :
    illegalChars.contains (replaceSpace c) = illegalChars.contains c := by
  by_cases h : c = ' '
  · subst h; decide
  · simp [replaceSpace, h]

/-- `replaceSpace` never produces a space. -/
lemma replaceSpace_ne_space (c : Char) : replaceSpace c ≠ ' ' := by
  by_cases h : c = ' '
  · subst h; decide
  · simp only [replaceSpace, if_neg h]; exact h

/-- `replaceSpace` is idempotent on characters. -/
lemma replaceSpace_replaceSpace (c : Char) :
    replaceSpace (replaceSpace c) = replaceSpace c := by
  by_cases h : c = ' '
  · subst h; decide
  · simp [replaceSpace, h]

/-- How the sanitizer treats one leading character. -/
lemma sanitize_cons (c : Char) (s : Str) :
    sanitize_filename (c :: s) =
      if illegalChars.contains c then sanitize_filename s
      else replaceSpace c :: sanitize_filename s := by
  by_cases h : c ∈ illegalChars
  · have hb : illegalChars.contains c = true := by simpa using h
    simp [sanitize_filename, List.filter_cons, h, hb]
  · have hb : illegalChars.contains c = false := by simpa using h
    simp [sanitize_filename, List.filter_cons, h, hb]

/-! ## Discovery lemmas -/

/-- A list is an infix of a mapped list exactly when it is the image of an
infix of the original list. -/
lemma infix_map_iff {α β : Type} (f : α → β) (tag : List β) (l : List α) :
    tag <:+: l.map f ↔ ∃ w, w <:+: l ∧ w.map f = tag := by
  constructor
  · rintro ⟨s, t, h⟩
    have h' : l.map f = s ++ (tag ++ t) := by rw [← h, List.append_assoc]
    rcases List.map_eq_append_iff.1 h' with ⟨l₁, l₂, rfl, hm₁, hm₂⟩
    rcases List.map_eq_append_iff.1 hm₂ with ⟨w, t', rfl, hw, ht⟩
    exact ⟨w, ⟨l₁, t', by rw [List.append_assoc]⟩, hw⟩
  · rintro ⟨w, hw, rfl⟩
    exact hw.map f

/-- Unfolding one item of the per-channel candidate loop. -/
lemma channelCandidates_cons (acc : List Video) (v : RawVideo)
    (items : List RawVideo) :
    channelCandidates acc (v :: items) =
      channelCandidates (if keepTitle v.title then acc ++ [candidateOf v] else acc)
        items := rfl

/-- The per-channel candidate loop appends the kept items' candidates. -/
lemma channelCandidates_eq (acc : List Video) (items : List RawVideo) :
    channelCandidates acc items =
      acc ++ (items.filter (fun v => keepTitle v.title)).map candidateOf := by
  induction items generalizing acc with
  | nil => simp [channelCandidates]
  | cons v rest ih =>
    rw [channelCandidates_cons]
    by_cases h : keepTitle v.title
    · rw [if_pos h, ih]
      simp [List.filter_cons, h, List.append_assoc]
    · rw [if_neg h, ih]
      simp [List.filter_cons, h]

/-- Discovery on a successful subscription list is the concatenation of the
per-channel contributions. -/
lemma fetch_ok_eq (channels : List ChannelId)
    (search : ChannelId → Except Unit (List RawVideo)) :
    fetch_recent_videos (.ok channels) search =
      (channels.map (contribution search)).flatten := by
  have hgen : ∀ (chs : List ChannelId) (acc : List Video),
      chs.foldl (fun acc ch => match search ch with
        | .error _ => acc
        | .ok items => channelCandidates acc items) acc =
      acc ++ (chs.map (contribution search)).flatten := by
    intro chs
    induction chs with
    | nil => intro acc; simp
    | cons ch rest ih =>
      intro acc
      rw [List.foldl_cons]
      have hbody : (match search ch with
          | .error _ => acc
          | .ok items => channelCandidates acc items) =
          acc ++ contribution search ch := by
        cases hs : search ch with
        | error e => simp [contribution, hs]
        | ok items => simp [contribution, hs, channelCandidates_eq]
      rw [hbody, ih, List.map_cons, List.flatten_cons, List.append_assoc]
  simpa [fetch_recent_videos] using hgen channels []

/-! ## Invocation lemmas -/

/-- The retry loop never produces a skipped outcome. -/
lemma invokeGo_ne_skipped (run : Nat → Bool) (m : Nat) :
    ∀ (rem att : Nat) (reason : SkipReason),
      (invokeGo run m att rem).1 ≠ .skipped reason := by
  intro rem
  induction rem with
  | zero => intro att reason; simp [invokeGo]
  | succ r ih =>
    intro att reason
    by_cases h : run att
    · simp [invokeGo, h]
    · simpa [invokeGo, h] using ih (att + 1) reason

/-- The retry loop never produces a skipped outcome. -/
lemma invoke_ne_skipped (run : Nat → Bool) (m : Nat) (reason : SkipReason) :
    (invoke run m).1 ≠ .skipped reason :=
  invokeGo_ne_skipped run m m 1 reason

/-- If the first attempt succeeds, the loop stops there. -/
lemma invoke_first_true (run : Nat → Bool) (m : Nat) (hm : 1 ≤ m)
    (h : run 1 = true) : invoke run m = (.succeeded 1, [1]) := by
  cases m with
  | zero => omega
  | succ r => simp [invoke, invokeGo, h]

end YTN

namespace YTN

/-- C5: the per-channel loop keeps exactly the items whose title passes the
shorts test; that test fails precisely when the title contains `"#shorts"`
case-insensitively; `"Big Update #Shorts"` (in any case) is excluded while
`"Big Update"` is included, with the canonical watch url. -/
theorem C5_shorts_exclusion :
    (∀ (acc : List Video) (items : List RawVideo),
      channelCandidates acc items =
        acc ++ (items.filter (fun v => keepTitle v.title)).map candidateOf) ∧
    (∀ title : Str, keepTitle title = false ↔ containsShortsCI title) ∧
    keepTitle ("Big Update #Shorts".toList) = false ∧
    keepTitle ("big update #SHORTS".toList) = false ∧
    keepTitle ("Big Update".toList) = true ∧
    candidateOf ⟨"Big Update".toList, "abc123".toList, 0⟩ =
      (⟨"Big Update".toList,
        "https://www.youtube.com/watch?v=abc123".toList⟩ : Video) := by
  refine ⟨channelCandidates_eq, ?_, by decide, by decide, by decide, by decide⟩
  intro title
  simp only [keepTitle, containsShortsCI, Bool.not_eq_false', decide_eq_true_eq]
  exact infix_map_iff lowerA shortsTag title

/-- C6: a failed subscription request yields the empty candidate sequence
without raising; discovery over a successful subscription list is the
concatenation of independent per-channel contributions; a channel whose
search fails contributes nothing; and removing such a channel from the
subscription list leaves the result unchanged. -/
theorem C6_discovery_failures :
    (∀ search : ChannelId → Except Unit (List RawVideo),
      fetch_recent_videos (.error ()) search = []) ∧
    (∀ (channels : List ChannelId)
      (search : ChannelId → Except Unit (List RawVideo)),
      fetch_recent_videos (.ok channels) search =
        (channels.map (contribution search)).flatten) ∧
    (∀ (search : ChannelId → Except Unit (List RawVideo)) (ch : ChannelId),
      search ch = .error () → contribution search ch = []) ∧
    (∀ (pre : List ChannelId) (ch : ChannelId) (post : List ChannelId)
      (search : ChannelId → Except Unit (List RawVideo)),
      search ch = .error () →
      fetch_recent_videos (.ok (pre ++ ch :: post)) search =
        fetch_recent_videos (.ok (pre ++ post)) search) := by
  refine ⟨fun search => rfl, fun channels search => fetch_ok_eq channels search,
    ?_, ?_⟩
  · intro search ch h
    simp [contribution, h]
  · intro pre ch post search h
    rw [fetch_ok_eq, fetch_ok_eq]
    simp [List.map_append, List.flatten_append, contribution, h]

/-- C6 witness: the theorem applied to a search that fails on the single
subscribed channel. -/
theorem C6_discovery_failures_witness :
    (fun _ : ChannelId => (Except.error () : Except Unit (List RawVideo))) ['c'] =
        .error () ∧
      fetch_recent_videos (.ok [['c']]) (fun _ => .error ()) =
        fetch_recent_videos (.ok []) (fun _ => .error ()) :=
  ⟨rfl, C6_discovery_failures.2.2.2 [] ['c'] [] (fun _ => .error ()) rfl⟩

/-- C7: with the provider modelled as returning exactly the videos
published strictly after `now - window_days`, every discovered candidate
comes from such a video; a video published at the threshold instant or
earlier is never returned for any channel; and a video published one second
after the threshold whose title passes the shorts test is discovered. -/
theorem C7_window_filtering (catalog : ChannelId → List RawVideo)
    (channels : List ChannelId) (now d : Int) :
    (∀ c, c ∈ discover catalog (.ok channels) now d →
      ∃ ch, ch ∈ channels ∧ ∃ v, v ∈ catalog ch ∧
        threshold now d < v.publishedAt ∧ c = candidateOf v) ∧
    (∀ (ch : ChannelId) (v : RawVideo), v.publishedAt ≤ threshold now d →
      v ∉ providerSearch catalog (threshold now d) ch) ∧
    (∀ (ch : ChannelId) (v : RawVideo), ch ∈ channels → v ∈ catalog ch →
      v.publishedAt = threshold now d + 1 → keepTitle v.title = true →
      candidateOf v ∈ discover catalog (.ok channels) now d) := by
  refine ⟨?_, ?_, ?_⟩
  · intro c hc
    rw [discover, fetch_ok_eq] at hc
    rcases List.mem_flatten.1 hc with ⟨l, hl, hcl⟩
    rcases List.mem_map.1 hl with ⟨ch, hch, rfl⟩
    rcases List.mem_map.1 hcl with ⟨v, hv, rfl⟩
    rcases List.mem_filter.1 hv with ⟨hv', -⟩
    rcases List.mem_filter.1 hv' with ⟨hvc, hlt⟩
    exact ⟨ch, hch, v, hvc, by simpa using hlt, rfl⟩
  · intro ch v hle hmem
    simp only [providerSearch, List.mem_filter, decide_eq_true_eq] at hmem
    omega
  · intro ch v hch hv hpub hkeep
    rw [discover, fetch_ok_eq]
    apply List.mem_flatten.2
    refine ⟨_, List.mem_map_of_mem _ hch, ?_⟩
    simp only [contribution]
    apply List.mem_map_of_mem
    refine List.mem_filter.2 ⟨?_, hkeep⟩
    simp only [providerSearch, List.mem_filter, decide_eq_true_eq]
    exact ⟨hv, by omega⟩

/-- C7 witness: threshold 0 (seven days before instant 604800); the video
published at instant 0 is excluded, the one published at instant 1 is
discovered. -/
theorem C7_window_filtering_witness :
    ((⟨['A'], ['x'], 0⟩ : RawVideo) ∉
        providerSearch (fun _ => [⟨['A'], ['x'], 0⟩, ⟨['B'], ['y'], 1⟩])
          (threshold 604800 7) ['c']) ∧
      candidateOf (⟨['B'], ['y'], 1⟩ : RawVideo) ∈
        discover (fun _ => [⟨['A'], ['x'], 0⟩, ⟨['B'], ['y'], 1⟩])
          (.ok [['c']]) 604800 7 :=
  ⟨(C7_window_filtering (fun _ => [⟨['A'], ['x'], 0⟩, ⟨['B'], ['y'], 1⟩])
      [['c']] 604800 7).2.1 ['c'] ⟨['A'], ['x'], 0⟩ (by decide),
    (C7_window_filtering (fun _ => [⟨['A'], ['x'], 0⟩, ⟨['B'], ['y'], 1⟩])
      [['c']] 604800 7).2.2 ['c'] ⟨['B'], ['y'], 1⟩ (by decide) (by decide)
      (by decide) (by decide)⟩

/-- C1 (counterexample): the sanitizer leaves a tab (a whitespace
character) in the output, and turns a run of two spaces into two
underscores rather than one. -/
theorem C1_counterexample :
    sanitize_filename ['a', '\t', 'b'] = ['a', '\t', 'b'] ∧
      ('\t').isWhitespace = true ∧
      sanitize_filename ['a', ' ', ' ', 'b'] = ['a', '_', '_', 'b'] := by
  refine ⟨by decide, by decide, by decide⟩

/-- C1 (amended): for every input string, the sanitized output contains no
illegal character and no space character; the output has one character per
character surviving the illegal-character removal, and at each position
that character is exactly one underscore if the surviving character was a
space (so a run of n spaces becomes n underscores) and the surviving
character itself otherwise (so whitespace other than the space character,
such as tab or newline, is left unchanged). -/
theorem C1_sanitize_amended :
    (∀ (s : Str) (c : Char), c ∈ sanitize_filename s →
      illegalChars.contains c = false ∧ c ≠ ' ') ∧
    (∀ s : Str, (sanitize_filename s).length =
      (s.filter (fun c => !(illegalChars.contains c))).length) ∧
    (∀ (s : Str) (i : Nat) (c : Char),
      (s.filter (fun c => !(illegalChars.contains c)))[i]? = some c →
      (sanitize_filename s)[i]? = some (if c = ' ' then '_' else c)) := by
  refine ⟨?_, ?_, ?_⟩
  · intro s c hc
    rcases List.mem_map.1 hc with ⟨b, hb, rfl⟩
    rcases List.mem_filter.1 hb with ⟨-, hbk⟩
    refine ⟨?_, replaceSpace_ne_space b⟩
    rw [contains_replaceSpace]
    simpa using hbk
  · intro s
    simp [sanitize_filename]
  · intro s i c hc
    show ((s.filter (fun c => !(illegalChars.contains c))).map
      replaceSpace)[i]? = some (if c = ' ' then '_' else c)
    rw [List.getElem?_map, hc]
    rfl

/-- C1 witness: the amended theorem applied at concrete inputs: the output
character `'_'` of `sanitize("a ")`, and the positions of `"a\t "` where
the tab is preserved and the space becomes an underscore. -/
theorem C1_sanitize_amended_witness :
    ('_' ∈ sanitize_filename ['a', ' ']) ∧
      (illegalChars.contains '_' = false ∧ '_' ≠ ' ') ∧
      ((['a', '\t', ' '].filter (fun c => !(illegalChars.contains c)))[1]? =
        some '\t') ∧
      (sanitize_filename ['a', '\t', ' '])[1]? = some '\t' ∧
      (sanitize_filename ['a', '\t', ' '])[2]? = some '_' :=
  ⟨by decide, C1_sanitize_amended.1 ['a', ' '] '_' (by decide), by decide,
    by simpa using C1_sanitize_amended.2.2 ['a', '\t', ' '] 1 '\t' (by decide),
    by simpa using C1_sanitize_amended.2.2 ['a', '\t', ' '] 2 ' ' (by decide)⟩

/-- C2: with `MAX_RETRIES = 2`, a process failing on every attempt gives
exactly the two attempts 1 and 2 and the outcome `Failed(2)`; a process
first succeeding on attempt `k ≤ 2` gives the outcome `Succeeded(k)` with
no attempt performed after `k`. -/
theorem C2_retry_bound (run : Nat → Bool) :
    ((∀ k, run k = false) →
      invoke run MAX_RETRIES = (.failed 2, [1, 2])) ∧
    (∀ k, 1 ≤ k → k ≤ 2 → (∀ j, 1 ≤ j → j < k → run j = false) →
      run k = true →
      (k = 1 → invoke run MAX_RETRIES = (.succeeded 1, [1])) ∧
      (k = 2 → invoke run MAX_RETRIES = (.succeeded 2, [1, 2]))) := by
  constructor
  · intro hfail
    simp [invoke, invokeGo, MAX_RETRIES, hfail 1, hfail 2]
  · intro k h1 h2 hbefore hk
    constructor
    · rintro rfl
      simp [invoke, invokeGo, MAX_RETRIES, hk]
    · rintro rfl
      have hr1 : run 1 = false := hbefore 1 (by omega) (by omega)
      simp [invoke, invokeGo, MAX_RETRIES, hr1, hk]

/-- C2 witness: the theorem applied to an always-failing process and to a
process that first succeeds on attempt 2. -/
theorem C2_retry_bound_witness :
    invoke (fun _ => false) MAX_RETRIES = (.failed 2, [1, 2]) ∧
      invoke (fun k => decide (k = 2)) MAX_RETRIES = (.succeeded 2, [1, 2]) :=
  ⟨(C2_retry_bound (fun _ => false)).1 (fun _ => rfl),
    ((C2_retry_bound (fun k => decide (k = 2))).2 2 (by decide) (by decide)
      (fun j hj1 hj2 => by
        have hj : j = 1 := by omega
        subst hj; rfl)
      (by decide)).2 rfl⟩

/-- C3: a candidate whose computed artifact path already exists in the
filesystem at the time it is processed is recorded as
`Skipped(AlreadyExists)`, with zero invocations of the external process;
in the batch loop its recorded entry is exactly that. -/
theorem C3_skip_existing :
    (∀ (proc : Nat → ProcResult) (fs : List Str) (savePath : Str) (v : Video),
      output_path savePath v.title ∈ fs →
      processVideo proc fs savePath v = (.skipped .alreadyExists, [], fs)) ∧
    (∀ (proc : Video → Nat → ProcResult) (fs : List Str) (savePath : Str)
      (v : Video) (rest : List Video),
      output_path savePath v.title ∈ fs →
      (process_videos proc fs (v :: rest) savePath).1.head? =
        some (.skipped .alreadyExists, [])) := by
  have hstep : ∀ (proc : Nat → ProcResult) (fs : List Str) (savePath : Str)
      (v : Video), output_path savePath v.title ∈ fs →
      processVideo proc fs savePath v = (.skipped .alreadyExists, [], fs) := by
    intro proc fs savePath v hmem
    simp [processVideo, hmem]
  refine ⟨hstep, ?_⟩
  intro proc fs savePath v rest hmem
  simp [process_videos, hstep (proc v) fs savePath v hmem]

/-- C3 witness: the theorem applied to a filesystem that already holds the
artifact path of the empty-titled video. -/
theorem C3_skip_existing_witness :
    output_path [] [] ∈ [output_path [] []] ∧
      processVideo (fun _ => ProcResult.completedSuccess)
        [output_path [] []] [] { title := [], url := [] } =
        (.skipped .alreadyExists, [], [output_path [] []]) :=
  ⟨by decide,
    C3_skip_existing.1 (fun _ => ProcResult.completedSuccess)
      [output_path [] []] [] { title := [], url := [] } (by decide)⟩

/-- C9: the sanitizer is idempotent: a second application removes nothing
and replaces nothing. -/
theorem C9_sanitize_idempotent (s : Str) :
    sanitize_filename (sanitize_filename s) = sanitize_filename s := by
  induction s with
  | nil => rfl
  | cons c rest ih =>
    rw [sanitize_cons]
    by_cases h : illegalChars.contains c
    · rw [if_pos h]; exact ih
    · rw [if_neg h, sanitize_cons, contains_replaceSpace, if_neg h,
        replaceSpace_replaceSpace, ih]

/-- C4: each account of a batch is processed independently of the others,
so a failure confined to one account never removes a later account's
results; in the two-account scenario where account A's discovery fails and
account B has one fresh candidate succeeding on attempt 1, the run yields
the empty sequence for A and `[Succeeded(1)]` for B. -/
theorem C4_batch_resilience :
    (∀ (pre : List AccountEnv) (env : AccountEnv) (post : List AccountEnv),
      runBatch (pre ++ env :: post) =
        runBatch pre ++ processAccount env :: runBatch post) ∧
    (∀ (envA envB : AccountEnv) (v : Video),
      envA.subs = .error () →
      fetch_recent_videos envB.subs envB.search = [v] →
      output_path envB.savePath v.title ∉ envB.fs →
      envB.proc v 1 = .completedSuccess →
      runBatch [envA, envB] = [[], [.succeeded 1]]) := by
  constructor
  · intro pre env post
    simp [runBatch]
  · intro envA envB v hA hB hfs hproc
    have hAout : processAccount envA = [] := by
      simp [processAccount, fetch_recent_videos, hA, process_videos]
    have hrun1 : attemptRun (envB.proc v) 1 = true := by
      simp [attemptRun, hproc, run_extract_wisdom]
    have hinv := invoke_first_true (attemptRun (envB.proc v)) MAX_RETRIES
      (by decide) hrun1
    have hBout : processAccount envB = [.succeeded 1] := by
      simp [processAccount, hB, process_videos, processVideo, hfs, hinv,
        isSucceeded]
    simp [runBatch, hAout, hBout]

/-- C4 witness: the theorem applied to the concrete two-account scenario. -/
theorem C4_batch_resilience_witness :
    scenarioEnvA.subs = .error () ∧
      fetch_recent_videos scenarioEnvB.subs scenarioEnvB.search =
        [scenarioVideo] ∧
      (output_path scenarioEnvB.savePath scenarioVideo.title ∉
        scenarioEnvB.fs) ∧
      scenarioEnvB.proc scenarioVideo 1 = .completedSuccess ∧
      runBatch [scenarioEnvA, scenarioEnvB] = [[], [.succeeded 1]] :=
  ⟨rfl, by decide, by decide, rfl,
    C4_batch_resilience.2 scenarioEnvA scenarioEnvB scenarioVideo rfl
      (by decide) (by decide) rfl⟩

/-- C8: the sanitized name and the artifact path are pure functions of the
title and save path; a video is recorded as skipped exactly when its
computed path is already in the filesystem; and after a successful run, a
second run on the resulting filesystem skips the same video, whatever its
process results are. -/
theorem C8_path_determinism :
    (∀ s : Str, sanitize_filename s = sanitize_filename s) ∧
    (∀ savePath title : Str,
      output_path savePath title = output_path savePath title) ∧
    (∀ (proc : Nat → ProcResult) (fs : List Str) (savePath : Str) (v : Video),
      ((processVideo proc fs savePath v).1 = .skipped .alreadyExists ↔
        output_path savePath v.title ∈ fs)) ∧
    (∀ (proc proc' : Nat → ProcResult) (fs : List Str) (savePath : Str)
      (v : Video) (k : Nat),
      (processVideo proc fs savePath v).1 = .succeeded k →
      (processVideo proc' (processVideo proc fs savePath v).2.2 savePath v).1 =
        .skipped .alreadyExists) := by
  refine ⟨fun s => rfl, fun savePath title => rfl, ?_, ?_⟩
  · intro proc fs savePath v
    by_cases hp : output_path savePath v.title ∈ fs
    · simp [processVideo, hp]
    · simp only [processVideo, if_neg hp]
      exact ⟨fun h => absurd h (invoke_ne_skipped _ _ _), fun h => absurd h hp⟩
  · intro proc proc' fs savePath v k h
    by_cases hp : output_path savePath v.title ∈ fs
    · simp [processVideo, hp] at h
    · simp only [processVideo, if_neg hp] at h ⊢
      rw [h]
      simp [isSucceeded, processVideo]

/-- C8 witness: a first run that succeeds, then a second run that is
skipped because the artifact now exists. -/
theorem C8_path_determinism_witness :
    (processVideo (fun _ => ProcResult.completedSuccess) [] []
        { title := [], url := [] }).1 = .succeeded 1 ∧
      (processVideo (fun _ => ProcResult.timedOut)
        (processVideo (fun _ => ProcResult.completedSuccess) [] []
          { title := [], url := [] }).2.2 []
        { title := [], url := [] }).1 = .skipped .alreadyExists :=
  ⟨by decide,
    C8_path_determinism.2.2.2 (fun _ => ProcResult.completedSuccess)
      (fun _ => ProcResult.timedOut) [] [] { title := [], url := [] } 1
      (by decide)⟩

/-- C10: a timed-out attempt and a non-success exit both yield `False` from
`run_extract_wisdom`, so two process behaviours that agree on *when* an
attempt succeeds — however their failures split between timeouts and bad
exits — give identical per-video results. -/
theorem C10_failure_modes_collapse :
    (run_extract_wisdom .timedOut = false ∧
      run_extract_wisdom .completedFailure = false) ∧
    (∀ (proc proc' : Nat → ProcResult) (fs : List Str) (savePath : Str)
      (v : Video),
      (∀ k, proc k = .completedSuccess ↔ proc' k = .completedSuccess) →
      processVideo proc fs savePath v = processVideo proc' fs savePath v) := by
  refine ⟨⟨rfl, rfl⟩, ?_⟩
  intro proc proc' fs savePath v h
  have hrun : attemptRun proc = attemptRun proc' := by
    funext k
    have hk := h k
    unfold attemptRun run_extract_wisdom
    cases hc : proc k <;> cases hc' : proc' k <;> simp_all
  simp [processVideo, hrun]

/-- C10 witness: an always-timing-out process and an always-failing-exit
process give the same per-video result. -/
theorem C10_failure_modes_collapse_witness :
    processVideo (fun _ => ProcResult.timedOut) [] [] { title := [], url := [] } =
      processVideo (fun _ => ProcResult.completedFailure) [] []
        { title := [], url := [] } :=
  C10_failure_modes_collapse.2 (fun _ => ProcResult.timedOut)
    (fun _ => ProcResult.completedFailure) [] [] { title := [], url := [] }
    (fun _ => ⟨fun h => ProcResult.noConfusion h,
      fun h => ProcResult.noConfusion h⟩)

end YTN
